import Mathlib

/-!
Verification development for the onea-opt algorithm engines.

Shallow embedding of the three computation engines of the repository:
* `Nsga2`    — the pump-scheduling optimizer (`src/lib/algorithms/nsga2.ts`),
  embedded over `ℚ` (JavaScript numbers behave exactly on these inputs);
  `Math.random()`-driven choices are modelled by an explicit oracle (`Rng`):
  `Math.floor(Math.random() * n)` becomes an arbitrary natural taken `% n`,
  and a comparison `Math.random() < rate` compares an arbitrary rational
  against `rate`.
* `NsgaJS`   — the same `evaluateIndividual`, but over a value type with JavaScript
  `NaN` propagation semantics (`JQ`), used to study out-of-range indexing
  (`demand[hour]` being `undefined`).
* `IForest`  — the isolation-forest anomaly detector
  (`src/lib/algorithms/isolation-forest.ts`), embedded over `ℝ` (it uses
  `Math.log`/`Math.sqrt`), with a value type `JsNum` carrying `NaN` and the
  infinities for the z-score divisions.
* `Forecast` — the demand forecaster helpers (`extractDailyPattern`,
  `calculateConfidence`, `calculatePredictionAccuracy`).
-/

/-- JavaScript `Math.round`: round half towards positive infinity. -/
def jsRound (x : ℚ) : ℤ := ⌊x + 1/2⌋

namespace Nsga2

/-- Pump descriptor (interface `PumpScheduleParams.pumps` entries). -/
structure Pump where
  id : String
  power : ℚ
  efficiency : ℚ
  maxFlow : ℚ
  deriving DecidableEq

/-- Operating constraints (`PumpScheduleParams.constraints`). -/
structure Constraints where
  minReservoir : ℚ
  maxReservoir : ℚ
  minCosPhi : ℚ
  maxActivePumps : ℕ
  deriving DecidableEq

/-- Input parameters of `optimizePumpSchedule`. -/
structure PumpScheduleParams where
  demand : List ℚ
  tariffs : List ℚ
  reservoirLevel : ℚ
  pumps : List Pump
  constraints : Constraints
  deriving DecidableEq

/-- One member of the evolutionary population (`interface Individual`).
`fitness : WithTop ℚ` — the `⊤` element models the JavaScript `Infinity`
that freshly created individuals carry before evaluation. -/
structure Individual where
  chromosome : List ℕ
  fitness : WithTop ℚ
  cost : ℚ
  reservoirViolation : ℚ
  cosPhi : ℚ
  deriving DecidableEq

/-- Result record of `optimizePumpSchedule` (`interface OptimizedSchedule`). -/
structure OptimizedSchedule where
  planning : List ℕ
  cost : ℚ
  savings : ℚ
  cosPhi : ℚ
  reservoirLevels : List ℚ
  fitness : WithTop ℚ
  deriving DecidableEq

/-- Optional algorithm configuration (`interface Nsga2Options`). -/
structure Nsga2Options where
  populationSize : Option ℕ
  generations : Option ℕ
  crossoverRate : Option ℚ
  mutationRate : Option ℚ
  eliteCount : Option ℕ
  deriving DecidableEq

/-- Oracle for all the `Math.random()` draws of the optimizer, indexed by
where the draw happens (individual/gene, generation/pair, …).  Draws used as
`Math.floor(Math.random() * n)` are taken `% n` at the use site; draws used
as `Math.random() < rate` are rationals compared against the rate. -/
structure Rng where
  initGene : ℕ → ℕ → ℕ
  tourDraw : ℕ → ℕ → ℕ → ℕ → ℕ
  crossRoll : ℕ → ℕ → ℚ
  crossPoint : ℕ → ℕ → ℕ
  mutRoll : ℕ → ℕ → ℚ
  mutPoint : ℕ → ℕ → ℕ
  mutGene : ℕ → ℕ → ℕ

/-- Placeholder pump for the (never taken on valid input) empty-list access
`pumps[0]`. -/
def defaultPump : Pump := ⟨"", 0, 0, 0⟩

/-- Placeholder individual for the (never taken when the population is
non-empty) out-of-range access `population[i]`. -/
def defaultIndividual : Individual := ⟨[], ⊤, 0, 0, 0⟩

/-- `initializePopulation`: `size` random chromosomes of 24 genes, each gene
`Math.floor(Math.random() * (maxPumps + 1))`, fitness `Infinity`,
cosPhi `0.95`. -/
def initializePopulation (size maxPumps : ℕ) (rng : Rng) : List Individual :=
  (List.range size).map fun i =>
    { chromosome := (List.range 24).map fun j => rng.initGene i j % (maxPumps + 1)
      fitness := ⊤
      cost := 0
      reservoirViolation := 0
      cosPhi := 95/100 }

/-- Accumulator of the hourly evaluation loop in `evaluateIndividual`. -/
structure EvalAcc where
  totalCost : ℚ
  reservoirViolation : ℚ
  currentReservoir : ℚ

/-- Body of the `for (hour = 0; hour < 24; hour++)` loop of
`evaluateIndividual`. -/
def evalHour (params : PumpScheduleParams) (avgEff : ℚ) (chromosome : List ℕ)
    (acc : EvalAcc) (hour : ℕ) : EvalAcc :=
  let pumpsActive : ℚ := (chromosome.getD hour 0 : ℕ)
  let hourlyDemand := params.demand.getD hour 0
  let hourlyTariff := params.tariffs.getD hour 0
  let productionCapacity := pumpsActive * (params.pumps.headD defaultPump).maxFlow
  let actualProduction := min productionCapacity (hourlyDemand * (12/10))
  let energyKWh := actualProduction * avgEff
  let hourlyCost := energyKWh * hourlyTariff
  let netFlow := actualProduction - hourlyDemand
  let newReservoir := acc.currentReservoir + netFlow / 1000 * 100
  let v1 := if newReservoir < params.constraints.minReservoir then
    params.constraints.minReservoir - newReservoir else 0
  let v2 := if params.constraints.maxReservoir < newReservoir then
    newReservoir - params.constraints.maxReservoir else 0
  { totalCost := acc.totalCost + hourlyCost
    reservoirViolation := acc.reservoirViolation + v1 + v2
    currentReservoir := newReservoir }

/-- `evaluateIndividual`: cost/violation accumulation over 24 hours, power
factor model and the scalar fitness. -/
def evaluateIndividual (individual : Individual) (params : PumpScheduleParams) :
    Individual :=
  let avgEff := (params.pumps.map Pump.efficiency).sum / (params.pumps.length : ℚ)
  let acc := (List.range 24).foldl (evalHour params avgEff individual.chromosome)
    ⟨0, 0, params.reservoirLevel⟩
  let geneSum : ℚ := (individual.chromosome.map fun g => (g : ℚ)).sum
  let avgPumpsActive := geneSum / 24
  let loadFactor := avgPumpsActive / (params.pumps.length : ℚ)
  let cosPhi := 85/100 + loadFactor * (15/100)
  let cosPhiPenalty := if cosPhi < params.constraints.minCosPhi then
    (params.constraints.minCosPhi - cosPhi) * 100000 else 0
  let fitness := acc.totalCost + acc.reservoirViolation * 1000 + cosPhiPenalty + geneSum * 10
  { individual with
      fitness := (fitness : WithTop ℚ)
      cost := (jsRound acc.totalCost : ℚ)
      reservoirViolation := acc.reservoirViolation
      cosPhi := (jsRound (cosPhi * 100) : ℚ) / 100 }

/-- `tournamentSelection` with tournament size 3: the draws are
`Math.floor(Math.random() * population.length)`. -/
def tournamentSelection (population : List Individual) (draw : ℕ → ℕ) : Individual :=
  let b0 := population.getD (draw 0 % population.length) defaultIndividual
  let c1 := population.getD (draw 1 % population.length) defaultIndividual
  let b1 := if c1.fitness < b0.fitness then c1 else b0
  let c2 := population.getD (draw 2 % population.length) defaultIndividual
  if c2.fitness < b1.fitness then c2 else b1

/-- Single-point `crossover`; the children carry fitness `Infinity`. -/
def crossover (parent1 parent2 : Individual) (point : ℕ) : Individual × Individual :=
  (⟨parent1.chromosome.take point ++ parent2.chromosome.drop point, ⊤, 0, 0, 0⟩,
   ⟨parent2.chromosome.take point ++ parent1.chromosome.drop point, ⊤, 0, 0, 0⟩)

/-- `mutate`: one random gene is replaced by
`Math.floor(Math.random() * (maxPumps + 1))`. -/
def mutate (individual : Individual) (point gene maxPumps : ℕ) : Individual :=
  { individual with chromosome := individual.chromosome.set point (gene % (maxPumps + 1)) }

/-- One iteration of the `while (offspring.length < populationSize)` loop:
two tournament selections, then either crossover (when the roll is below the
crossover rate) or plain cloning (`{ ...parent }`). -/
def makePair (population : List Individual) (rng : Rng) (crossoverRate : ℚ)
    (gen k : ℕ) : List Individual :=
  let parent1 := tournamentSelection population (rng.tourDraw gen k 0)
  let parent2 := tournamentSelection population (rng.tourDraw gen k 1)
  if rng.crossRoll gen k < crossoverRate then
    let c := crossover parent1 parent2 (rng.crossPoint gen k % 24)
    [c.1, c.2]
  else
    [parent1, parent2]

/-- The full offspring pool: the while-loop pushes two children per
iteration, so it runs `⌈populationSize / 2⌉` times. -/
def makeOffspring (population : List Individual) (rng : Rng) (crossoverRate : ℚ)
    (populationSize gen : ℕ) : List Individual :=
  ((List.range ((populationSize + 1) / 2)).map
    (makePair population rng crossoverRate gen)).flatten

/-- The mutation pass `for (i = eliteCount; i < offspring.length; i++)`:
every offspring with index at least `eliteCount` mutates when its roll is
below the mutation rate. -/
def mutationPass (rng : Rng) (mutationRate : ℚ) (eliteCount maxPumps gen : ℕ) :
    ℕ → List Individual → List Individual
  | _, [] => []
  | i, ind :: rest =>
    (if eliteCount ≤ i ∧ rng.mutRoll gen i < mutationRate then
        mutate ind (rng.mutPoint gen i % 24) (rng.mutGene gen i) maxPumps
      else ind) :: mutationPass rng mutationRate eliteCount maxPumps gen (i + 1) rest

/-- Boolean comparator of the survivor sort
`combined.sort((a, b) => a.fitness - b.fitness)` (ascending by fitness). -/
def fitnessLe (a b : Individual) : Bool := decide (a.fitness ≤ b.fitness)

/-- One generation of the evolution loop: make offspring, mutate, evaluate,
merge with the parents, sort ascending by fitness, truncate to the
population size. -/
def generationStep (params : PumpScheduleParams) (rng : Rng)
    (populationSize eliteCount : ℕ) (crossoverRate mutationRate : ℚ)
    (maxPumps gen : ℕ) (population : List Individual) : List Individual :=
  let offspring := makeOffspring population rng crossoverRate populationSize gen
  let mutated := mutationPass rng mutationRate eliteCount maxPumps gen 0 offspring
  let evaluatedOffspring := mutated.map (evaluateIndividual · params)
  let combined := population ++ evaluatedOffspring
  (combined.mergeSort fitnessLe).take populationSize

/-- The population after `g` generations (generation 0 is the evaluated
initial population). -/
def evolve (params : PumpScheduleParams) (rng : Rng)
    (populationSize eliteCount : ℕ) (crossoverRate mutationRate : ℚ)
    (maxPumps : ℕ) : ℕ → List Individual
  | 0 => (initializePopulation populationSize maxPumps rng).map
      (evaluateIndividual · params)
  | g + 1 => generationStep params rng populationSize eliteCount crossoverRate
      mutationRate maxPumps g
      (evolve params rng populationSize eliteCount crossoverRate mutationRate maxPumps g)

/-- `calculateUniformCost`: the uniform-schedule baseline
(demand × efficiency × tariff summed over the 24 hours, rounded). -/
def calculateUniformCost (params : PumpScheduleParams) : ℚ :=
  let avgEff := (params.pumps.map Pump.efficiency).sum / (params.pumps.length : ℚ)
  (jsRound (((List.range 24).map fun hour =>
    params.demand.getD hour 0 * avgEff * params.tariffs.getD hour 0).sum) : ℚ)

/-- The hourly recursion of `simulateReservoir`: the running level stays
unclamped, each reported entry is clamped into `[0, 100]`. -/
def simGo (planning : List ℕ) (maxFlow : ℚ) (demand : List ℚ) (cur : ℚ) :
    ℕ → ℕ → List ℚ
  | _, 0 => []
  | hour, fuel + 1 =>
    let production : ℚ := (planning.getD hour 0 : ℕ) * maxFlow
    let next := cur + (production - demand.getD hour 0) / 1000 * 100
    max 0 (min 100 next) :: simGo planning maxFlow demand next (hour + 1) fuel

/-- `simulateReservoir`: the starting level followed by 24 clamped hourly
levels. -/
def simulateReservoir (planning : List ℕ) (params : PumpScheduleParams) : List ℚ :=
  params.reservoirLevel ::
    simGo planning (params.pumps.headD defaultPump).maxFlow params.demand
      params.reservoirLevel 0 24

/-- `optimizePumpSchedule`.  Returns `none` exactly when the final
population is empty (`population[0]` would throw in JavaScript, which can
only happen for `populationSize = 0`). -/
def optimizePumpSchedule (params : PumpScheduleParams) (options : Nsga2Options)
    (rng : Rng) : Option OptimizedSchedule :=
  let populationSize := options.populationSize.getD 50
  let generations := options.generations.getD 20
  let crossoverRate := options.crossoverRate.getD (9/10)
  let mutationRate := options.mutationRate.getD (1/10)
  let eliteCount := options.eliteCount.getD 5
  let maxPumps := params.constraints.maxActivePumps
  let final := evolve params rng populationSize eliteCount crossoverRate
    mutationRate maxPumps generations
  match final.head? with
  | none => none
  | some best =>
    some { planning := best.chromosome
           cost := best.cost
           savings := calculateUniformCost params - best.cost
           cosPhi := best.cosPhi
           reservoirLevels := simulateReservoir best.chromosome params
           fitness := best.fitness }

/-- Lowest fitness present in a population (`⊤` for the empty population). -/
def bestFitness (population : List Individual) : WithTop ℚ :=
  (population.map Individual.fitness).foldr min ⊤

end Nsga2

namespace NsgaJS

/-- JavaScript numbers restricted to the values reachable inside
`evaluateIndividual` when the pump list is non-empty: either a finite
(rational) value or `NaN`.  An out-of-range array access (`undefined`)
behaves exactly like `NaN` in every operation performed on it here
(arithmetic yields `NaN`, comparisons yield `false`), so it is also
modelled by `nan`. -/
inductive JQ where
  | fin (x : ℚ)
  | nan
  deriving DecidableEq

/-- Array indexing `a[i]` (`undefined` out of range, see `JQ`). -/
def getJ (l : List ℚ) (i : ℕ) : JQ :=
  match l.get? i with
  | some x => .fin x
  | none => .nan

/-- Chromosome indexing (genes are naturals). -/
def getJN (l : List ℕ) (i : ℕ) : JQ :=
  match l.get? i with
  | some x => .fin (x : ℚ)
  | none => .nan

/-- JavaScript addition with `NaN` propagation. -/
def qadd : JQ → JQ → JQ
  | .fin x, .fin y => .fin (x + y)
  | _, _ => .nan

/-- JavaScript subtraction with `NaN` propagation. -/
def qsub : JQ → JQ → JQ
  | .fin x, .fin y => .fin (x - y)
  | _, _ => .nan

/-- JavaScript multiplication with `NaN` propagation. -/
def qmul : JQ → JQ → JQ
  | .fin x, .fin y => .fin (x * y)
  | _, _ => .nan

/-- `Math.min`, which returns `NaN` when either argument is `NaN`. -/
def qmin : JQ → JQ → JQ
  | .fin x, .fin y => .fin (min x y)
  | _, _ => .nan

/-- Division by a non-zero constant (the source divides by `1000` only). -/
def qdivC : JQ → ℚ → JQ
  | .fin x, c => .fin (x / c)
  | .nan, _ => .nan

/-- Division of a plain rational by an array length:
`0 / 0` is JavaScript `NaN` (the numerator is a sum over the same list, so
a zero length forces a zero numerator; a non-zero numerator cannot occur). -/
def qdivLen (s : ℚ) (n : ℕ) : JQ :=
  if n = 0 then .nan else .fin (s / (n : ℚ))

/-- JavaScript `<`, which is `false` whenever an operand is `NaN`. -/
def qlt : JQ → JQ → Bool
  | .fin x, .fin y => decide (x < y)
  | _, _ => false

/-- `Math.round` (`NaN` stays `NaN`). -/
def qround : JQ → JQ
  | .fin x => .fin ((jsRound x : ℤ) : ℚ)
  | .nan => .nan

/-- An `Individual` whose evaluated annotations carry JavaScript-number
semantics. -/
structure IndividualJS where
  chromosome : List ℕ
  fitness : JQ
  cost : JQ
  reservoirViolation : JQ
  cosPhi : JQ
  deriving DecidableEq

/-- Loop accumulator of the JavaScript-semantics evaluation. -/
structure EvalAccJS where
  totalCost : JQ
  reservoirViolation : JQ
  currentReservoir : JQ

/-- Hour body of `evaluateIndividual` with JavaScript number semantics:
identical to `Nsga2.evalHour` except that out-of-range reads and the
arithmetic on them follow the `NaN` rules. -/
def evalHourJS (params : Nsga2.PumpScheduleParams) (avgEff : JQ)
    (chromosome : List ℕ) (acc : EvalAccJS) (hour : ℕ) : EvalAccJS :=
  let pumpsActive := getJN chromosome hour
  let hourlyDemand := getJ params.demand hour
  let hourlyTariff := getJ params.tariffs hour
  let productionCapacity :=
    qmul pumpsActive (.fin (params.pumps.headD Nsga2.defaultPump).maxFlow)
  let actualProduction := qmin productionCapacity (qmul hourlyDemand (.fin (12/10)))
  let energyKWh := qmul actualProduction avgEff
  let hourlyCost := qmul energyKWh hourlyTariff
  let netFlow := qsub actualProduction hourlyDemand
  let newReservoir := qadd acc.currentReservoir (qmul (qdivC netFlow 1000) (.fin 100))
  let viol1 :=
    if qlt newReservoir (.fin params.constraints.minReservoir) then
      qadd acc.reservoirViolation
        (qsub (.fin params.constraints.minReservoir) newReservoir)
    else acc.reservoirViolation
  let viol2 :=
    if qlt (.fin params.constraints.maxReservoir) newReservoir then
      qadd viol1 (qsub newReservoir (.fin params.constraints.maxReservoir))
    else viol1
  { totalCost := qadd acc.totalCost hourlyCost
    reservoirViolation := viol2
    currentReservoir := newReservoir }

/-- `evaluateIndividual` with JavaScript number semantics.  (With an empty
pump list the source throws a `TypeError` at `pumps[0].maxFlow` before any
result is produced; this embedding is meant for non-empty pump lists.) -/
def evaluateIndividualJS (individual : IndividualJS)
    (params : Nsga2.PumpScheduleParams) : IndividualJS :=
  let avgEff := qdivLen (params.pumps.map Nsga2.Pump.efficiency).sum params.pumps.length
  let acc := (List.range 24).foldl (evalHourJS params avgEff individual.chromosome)
    ⟨.fin 0, .fin 0, .fin params.reservoirLevel⟩
  let geneSum : ℚ := (individual.chromosome.map fun g => (g : ℚ)).sum
  let avgPumpsActive : ℚ := geneSum / 24
  let loadFactor := qdivLen avgPumpsActive params.pumps.length
  let cosPhi := qadd (.fin (85/100)) (qmul loadFactor (.fin (15/100)))
  let cosPhiPenalty :=
    if qlt cosPhi (.fin params.constraints.minCosPhi) then
      qmul (qsub (.fin params.constraints.minCosPhi) cosPhi) (.fin 100000)
    else .fin 0
  let fitness :=
    qadd (qadd (qadd acc.totalCost (qmul acc.reservoirViolation (.fin 1000)))
      cosPhiPenalty) (.fin (geneSum * 10))
  { individual with
      fitness := fitness
      cost := qround acc.totalCost
      reservoirViolation := acc.reservoirViolation
      cosPhi := qdivC (qround (qmul cosPhi (.fin 100))) 100 }

end NsgaJS

namespace IForest

/-- JavaScript numbers as needed by the anomaly detector: a finite (real)
value, the two infinities, or `NaN`.  `Math.log`/`Math.sqrt` force a real
(not rational) carrier. -/
inductive JsNum where
  | fin (x : ℝ)
  | posInf
  | negInf
  | nan

/-- Sensor reading (`interface PumpDataPoint`); the optional
vibration/temperature/pressure fields are never read by the algorithm and
are omitted. -/
structure SensorPoint where
  timestamp : ℤ
  kwhM3 : ℝ
  debit : ℝ
  reservoir : ℝ

/-- The three features an isolation tree can split on. -/
inductive Feature where
  | kwhM3
  | debit
  | reservoir

/-- Read a feature off a reading. -/
def SensorPoint.feature (p : SensorPoint) : Feature → ℝ
  | .kwhM3 => p.kwhM3
  | .debit => p.debit
  | .reservoir => p.reservoir

/-- JavaScript addition (`NaN` absorbs; opposite infinities give `NaN`). -/
noncomputable def jadd : JsNum → JsNum → JsNum
  | .nan, _ => .nan
  | _, .nan => .nan
  | .posInf, .negInf => .nan
  | .negInf, .posInf => .nan
  | .posInf, _ => .posInf
  | _, .posInf => .posInf
  | .negInf, _ => .negInf
  | _, .negInf => .negInf
  | .fin x, .fin y => .fin (x + y)

/-- Multiplication by a positive (finite) constant — the source multiplies
scores by `0.6`, `0.4`, `5` and `50` only. -/
noncomputable def jmulPos (c : ℝ) : JsNum → JsNum
  | .fin x => .fin (c * x)
  | .posInf => .posInf
  | .negInf => .negInf
  | .nan => .nan

/-- `Math.min(1, a)`: `NaN` wins, `Infinity` loses. -/
noncomputable def jmin1 : JsNum → JsNum
  | .fin x => .fin (min 1 x)
  | .posInf => .fin 1
  | .negInf => .negInf
  | .nan => .nan

/-- Division by a positive constant (the source divides the z-score by 3). -/
noncomputable def jdivPos : JsNum → ℝ → JsNum
  | .fin x, c => .fin (x / c)
  | .posInf, _ => .posInf
  | .negInf, _ => .negInf
  | .nan, _ => .nan

/-- JavaScript division of two finite reals, as used for the z-scores
`(value - mean) / std`: the standard deviation is a non-negative real
(`+0` in JavaScript when zero), so `0 / 0 = NaN` and `x / 0 = ±Infinity`
for non-zero `x`. -/
noncomputable def jsdiv (num den : ℝ) : JsNum :=
  if den = 0 then
    if num = 0 then .nan else if 0 < num then .posInf else .negInf
  else .fin (num / den)

/-- `Math.round(x * 1000) / 1000` (three decimals), fixed on `NaN`/`±∞`. -/
noncomputable def jround3 : JsNum → JsNum
  | .fin x => .fin ((⌊x * 1000 + 1/2⌋ : ℤ) / 1000)
  | .posInf => .posInf
  | .negInf => .negInf
  | .nan => .nan

/-- `Math.round(x * 100) / 100` (two decimals), fixed on `NaN`/`±∞`. -/
noncomputable def jround2 : JsNum → JsNum
  | .fin x => .fin ((⌊x * 100 + 1/2⌋ : ℤ) / 100)
  | .posInf => .posInf
  | .negInf => .negInf
  | .nan => .nan

/-- `Math.round(x * 50) / 100` (the `combinedScore` rounding). -/
noncomputable def jroundHalf : JsNum → JsNum
  | .fin x => .fin ((⌊x * 50 + 1/2⌋ : ℤ) / 100)
  | .posInf => .posInf
  | .negInf => .negInf
  | .nan => .nan

/-- JavaScript `a > t` for a finite threshold (`false` on `NaN`). -/
noncomputable def jgtR (a : JsNum) (t : ℝ) : Bool :=
  match a with
  | .fin x => decide (t < x)
  | .posInf => true
  | .negInf => false
  | .nan => false

/-- JavaScript `a < t` for a finite threshold (`false` on `NaN`). -/
noncomputable def jltR (a : JsNum) (t : ℝ) : Bool :=
  match a with
  | .fin x => decide (x < t)
  | .posInf => false
  | .negInf => true
  | .nan => false

/-- Mean / standard deviation pair of `calculateStats`. -/
structure Stats where
  mean : ℝ
  std : ℝ

/-- `calculateStats`: population mean and standard deviation. -/
noncomputable def calculateStats (values : List ℝ) : Stats :=
  let mean := values.sum / (values.length : ℝ)
  let variance := (values.map fun v => (v - mean) ^ 2).sum / (values.length : ℝ)
  { mean := mean, std := Real.sqrt variance }

/-- Batch-wide baseline statistics of `calculateBaseline`. -/
structure Baseline where
  kwhM3 : Stats
  debit : Stats
  reservoir : Stats

/-- `calculateBaseline`. -/
noncomputable def calculateBaseline (data : List SensorPoint) : Baseline :=
  { kwhM3 := calculateStats (data.map SensorPoint.kwhM3)
    debit := calculateStats (data.map SensorPoint.debit)
    reservoir := calculateStats (data.map SensorPoint.reservoir) }

/-- An isolation tree: internal nodes carry the split feature and split
value, leaves carry the number of points that reached them. -/
inductive ITree where
  | leaf (size : ℕ)
  | node (splitFeature : Feature) (splitValue : ℝ) (left right : ITree)

/-- Per-tree randomness oracle, indexed by the path from the root
(`false` = left child, `true` = right child): the feature pick
`features[Math.floor(Math.random() * 3)]` and the raw `Math.random()` roll
used for the split value. -/
structure TreeRng where
  pickFeature : List Bool → Feature
  roll : List Bool → ℝ

/-- `Math.min(...values)` over a non-empty list (the empty case never
arises: trees only split lists of length at least 2). -/
noncomputable def listMin : List ℝ → ℝ
  | [] => 0
  | v :: vs => vs.foldl min v

/-- `Math.max(...values)` over a non-empty list. -/
noncomputable def listMax : List ℝ → ℝ
  | [] => 0
  | v :: vs => vs.foldl max v

/-- `buildTree`: stop at one point or at the height cap, else split on a
random feature at `min + roll * (max - min)` into `< splitValue` (left) and
`≥ splitValue` (right). -/
noncomputable def buildTree (rng : TreeRng) (data : List SensorPoint)
    (currentHeight maxHeight : ℕ) (path : List Bool) : ITree :=
  if h : data.length ≤ 1 ∨ maxHeight ≤ currentHeight then .leaf data.length
  else
    let f := rng.pickFeature path
    let values := data.map (·.feature f)
    let splitValue := listMin values + rng.roll path * (listMax values - listMin values)
    let left := data.filter fun d => decide (d.feature f < splitValue)
    let right := data.filter fun d => !decide (d.feature f < splitValue)
    .node f splitValue
      (buildTree rng left (currentHeight + 1) maxHeight (false :: path))
      (buildTree rng right (currentHeight + 1) maxHeight (true :: path))
  termination_by maxHeight - currentHeight
  decreasing_by
    all_goals (push_neg at h; omega)

/-- `calculateExpectedPath`: the external-node correction term
`2 (ln (n - 1) + 0.5772156649) - 2 (n - 1) / n` (0 for `n ≤ 1`). -/
noncomputable def calculateExpectedPath (size : ℕ) : ℝ :=
  if size ≤ 1 then 0
  else 2 * (Real.log ((size : ℝ) - 1) + 0.5772156649) - 2 * ((size : ℝ) - 1) / (size : ℝ)

/-- `getPathLength`: edges traversed plus the leaf correction. -/
noncomputable def getPathLength (point : SensorPoint) :
    ITree → ℕ → ℝ
  | .leaf size, currentLength => (currentLength : ℝ) + calculateExpectedPath size
  | .node f v l r, currentLength =>
    if point.feature f < v then getPathLength point l (currentLength + 1)
    else getPathLength point r (currentLength + 1)

/-- `buildIsolationForest`: `nEstimators` trees, each over the same fixed
prefix `data.slice(0, min(256, data.length))`, with height cap
`Math.ceil(Math.log2(sampleSize))` (that is `Nat.clog 2 sampleSize`). -/
noncomputable def buildIsolationForest (data : List SensorPoint)
    (nEstimators : ℕ) (rng : ℕ → TreeRng) : List ITree :=
  (List.range nEstimators).map fun i =>
    let sampleSize := min 256 data.length
    let sample := data.take sampleSize
    buildTree (rng i) sample 0 (Nat.clog 2 sampleSize) []

/-- `calculateAnomalyScore`: `0.6 ×` structural score (from the average path
length normalized by `ceil(log2(256))`) `+ 0.4 ×` statistical score (the
kWh/m³ z-score capped at 3σ). -/
noncomputable def calculateAnomalyScore (point : SensorPoint)
    (trees : List ITree) (baseline : Baseline) : JsNum :=
  let totalPathLength := (trees.map fun t => getPathLength point t 0).sum
  let avgPathLength := totalPathLength / (trees.length : ℝ)
  let maxPath : ℝ := (Nat.clog 2 256 : ℕ)
  let normalizedScore := 1 - avgPathLength / maxPath
  let kwhM3ZScore := jsdiv |point.kwhM3 - baseline.kwhM3.mean| baseline.kwhM3.std
  let statisticalScore := jmin1 (jdivPos kwhM3ZScore 3)
  jadd (jmulPos (6/10) (.fin normalizedScore)) (jmulPos (4/10) statisticalScore)

/-- `determineProbableCause`: the rule-based explanation (signed z-scores). -/
noncomputable def determineProbableCause (point : SensorPoint)
    (baseline : Baseline) : String :=
  let kwhM3Deviation := jsdiv (point.kwhM3 - baseline.kwhM3.mean) baseline.kwhM3.std
  let debitDeviation := jsdiv (point.debit - baseline.debit.mean) baseline.debit.std
  let causes : List String :=
    (if jgtR kwhM3Deviation 2 then ["Surconsommation énergétique"] else []) ++
    (if jgtR debitDeviation (3/2) ∧ point.reservoir < baseline.reservoir.mean then
      ["Fuite probable détectée"] else []) ++
    (if jgtR kwhM3Deviation (3/2) ∧ jltR debitDeviation (1/2) then
      ["Usure pompe ou encrassement"] else []) ++
    (if point.reservoir < 30 then ["Niveau réservoir critique"] else [])
  if causes.length = 0 then "Anomalie non identifiée"
  else String.intercalate " + " causes

/-- Per-feature deviation magnitudes (`features` of `AnomalyResult`). -/
structure FeatureDeviations where
  kwhM3Deviation : JsNum
  debitDeviation : JsNum
  combinedScore : JsNum

/-- `calculateFeatureDeviations` (rounding applied only to the returned
fields; `combinedScore` is built from the unrounded values). -/
noncomputable def calculateFeatureDeviations (point : SensorPoint)
    (baseline : Baseline) : FeatureDeviations :=
  let kwhM3Deviation := jsdiv |point.kwhM3 - baseline.kwhM3.mean| baseline.kwhM3.std
  let debitDeviation := jsdiv |point.debit - baseline.debit.mean| baseline.debit.std
  { kwhM3Deviation := jround2 kwhM3Deviation
    debitDeviation := jround2 debitDeviation
    combinedScore := jroundHalf (jadd kwhM3Deviation debitDeviation) }

/-- Per-reading result of the detector (`interface AnomalyResult`). -/
structure AnomalyResult where
  timestamp : ℤ
  score : JsNum
  isAnomaly : Bool
  probableCause : String
  confidence : JsNum
  features : FeatureDeviations

/-- The fallback result issued for each reading of a batch of fewer than 10
readings. -/
def insufficientDataResult (d : SensorPoint) : AnomalyResult :=
  { timestamp := d.timestamp
    score := .fin 0
    isAnomaly := false
    probableCause := "Insufficient data"
    confidence := .fin 0
    features := ⟨.fin 0, .fin 0, .fin 0⟩ }

/-- `detectAnomalies`: fallback below 10 readings, else baseline + forest of
50 trees + one scored result per reading, in input order. -/
noncomputable def detectAnomalies (data : List SensorPoint)
    (rng : ℕ → TreeRng) : List AnomalyResult :=
  if data.length < 10 then
    data.map insufficientDataResult
  else
    let baseline := calculateBaseline data
    let trees := buildIsolationForest data 50 rng
    data.map fun point =>
      let score := calculateAnomalyScore point trees baseline
      let isAnomaly := jgtR score (15/100)
      { timestamp := point.timestamp
        score := jround3 score
        isAnomaly := isAnomaly
        probableCause := if isAnomaly then determineProbableCause point baseline
          else "Normal"
        confidence := jmin1 (jmulPos 5 score)
        features := calculateFeatureDeviations point baseline }

end IForest

namespace Forecast

/-- `BASE_CONSUMPTION` (m³/day). -/
def baseConsumption : ℚ := 6450

/-- `PEAK_HOURS_MORNING`. -/
def peakHoursMorning : List ℕ := [6, 7, 8, 9]

/-- `PEAK_HOURS_EVENING`. -/
def peakHoursEvening : List ℕ := [17, 18, 19, 20, 21]

/-- `OFF_PEAK_HOURS`. -/
def offPeakHours : List ℕ := [22, 23, 0, 1, 2, 3, 4, 5]

/-- `generateDefaultPattern`: the built-in diurnal pattern used when fewer
than 24 historical points are available. -/
def generateDefaultPattern : List ℚ :=
  (List.range 24).map fun hour =>
    let demand := baseConsumption / 24
    if hour ∈ peakHoursMorning then demand * (13/10)
    else if hour ∈ peakHoursEvening then demand * (14/10)
    else if hour ∈ offPeakHours then demand * (6/10)
    else demand

/-- `extractDailyPattern`: same-hour averages across the
`⌊length / 24⌋` complete days (the in-loop guard `idx < length` included). -/
def extractDailyPattern (historical : List ℚ) : List ℚ :=
  if historical.length < 24 then generateDefaultPattern
  else
    let numDays := historical.length / 24
    (List.range 24).map fun hour =>
      (((List.range numDays).map fun day =>
          if day * 24 + hour < historical.length then
            historical.getD (day * 24 + hour) 0
          else 0).sum) / (numDays : ℚ)

/-- `calculateConfidence`: 0.70 base, history and holiday adjustments,
clamped by `Math.min(0.95, Math.max(0.5, confidence))`. -/
def calculateConfidence (historicalLength : ℕ) (isHoliday : Bool) : ℚ :=
  let c0 : ℚ := 7/10
  let c1 := if 168 ≤ historicalLength then c0 + 15/100
    else if 72 ≤ historicalLength then c0 + 8/100
    else c0
  let c2 := if isHoliday then c1 - 1/10 else c1
  min (95/100) (max (1/2) c2)

/-- Result triple of `calculatePredictionAccuracy`. -/
structure PredictionAccuracy where
  mape : ℚ
  rmse : ℝ
  within5Percent : ℚ

/-- Per-point percentage error: `|p - a| / a * 100` when `a > 0`, else 0. -/
def percentError (p a : ℚ) : ℚ := if 0 < a then |p - a| / a * 100 else 0

/-- The list of per-point percentage errors of a prediction/actual pair. -/
def percentErrors (predicted actual : List ℚ) : List ℚ :=
  (predicted.zip actual).map fun pa => percentError pa.1 pa.2

/-- The `within5Percent` counter: points with percentage error at most 5. -/
def within5Count (predicted actual : List ℚ) : ℕ :=
  (percentErrors predicted actual).countP fun pe => decide (pe ≤ 5)

/-- `calculatePredictionAccuracy`: MAPE, RMSE and the within-5-percent
ratio; all zeros on mismatched or empty lengths. -/
noncomputable def calculatePredictionAccuracy (predicted actual : List ℚ) :
    PredictionAccuracy :=
  if predicted.length ≠ actual.length ∨ predicted.length = 0 then ⟨0, 0, 0⟩
  else
    let totalError := (percentErrors predicted actual).sum
    let totalSquaredError := ((predicted.zip actual).map fun pa => (pa.1 - pa.2) ^ 2).sum
    let mape := totalError / (predicted.length : ℚ)
    let rmse : ℝ := Real.sqrt (((totalSquaredError / (predicted.length : ℚ) : ℚ) : ℝ))
    { mape := (jsRound (mape * 100) : ℚ) / 100
      rmse := ((⌊rmse * 100 + 1/2⌋ : ℤ) : ℝ) / 100
      within5Percent :=
        (jsRound (((within5Count predicted actual : ℚ) / (predicted.length : ℚ)) * 100) : ℚ) }

end Forecast

namespace Nsga2

/-- Degenerate oracle (all draws zero) used to exercise the optimizer on a
concrete run. -/
def zeroRng : Rng :=
  ⟨fun _ _ => 0, fun _ _ _ _ => 0, fun _ _ => 0, fun _ _ => 0,
   fun _ _ => 0, fun _ _ => 0, fun _ _ => 0⟩

/-- A small valid parameter set: one pump, zero demand and tariffs,
reservoir at 50 %. -/
def sampleParams : PumpScheduleParams :=
  { demand := List.replicate 24 0
    tariffs := List.replicate 24 0
    reservoirLevel := 50
    pumps := [⟨"P1", 160, 1/10, 600⟩]
    constraints := ⟨30, 95, 8/10, 3⟩ }

/-- Options selecting a one-individual population and zero generations. -/
def sampleOptions : Nsga2Options := ⟨some 1, some 0, none, none, none⟩

/-- The result of the sample run (the run provably returns `some`, so the
fallback record is never used). -/
def sampleResult : OptimizedSchedule :=
  (optimizePumpSchedule sampleParams sampleOptions zeroRng).getD ⟨[], 0, 0, 0, [], ⊤⟩

/-- Wellformedness of a chromosome: exactly 24 genes, each at most
`maxPumps`. -/
def ValidChrom (maxPumps : ℕ) (c : List ℕ) : Prop :=
  c.length = 24 ∧ ∀ g ∈ c, g ≤ maxPumps

end Nsga2

namespace NsgaJS

/-- Parameters that are valid except for a 23-entry demand array. -/
def shortDemandParams : Nsga2.PumpScheduleParams :=
  { demand := List.replicate 23 100
    tariffs := List.replicate 24 50
    reservoirLevel := 50
    pumps := [⟨"P1", 160, 1/10, 600⟩]
    constraints := ⟨30, 95, 8/10, 3⟩ }

/-- A well-formed individual (24 genes, one pump active every hour). -/
def probeIndividual : IndividualJS :=
  ⟨List.replicate 24 1, .fin 0, .fin 0, .fin 0, .fin 0⟩

end NsgaJS

namespace IForest

/-- A sensor reading with every feature equal to 1. -/
def basePoint : SensorPoint := ⟨0, 1, 1, 1⟩

/-- A sensor reading with every feature equal to 2. -/
def oddPoint : SensorPoint := ⟨0, 2, 2, 2⟩

/-- Ten identical readings: every feature is constant across the batch. -/
def constantBatch : List SensorPoint := List.replicate 10 basePoint

/-- 255 identical readings plus one different reading: a 256-point batch
whose duplicates can never be separated by any split. -/
def duplicateBatch : List SensorPoint := List.replicate 255 basePoint ++ [oddPoint]

/-- Arbitrary default used with `List.headD` on result lists that are
provably non-empty. -/
def someResult : AnomalyResult := insufficientDataResult basePoint

/-- Lower bound for the leaf correction term of a leaf holding at least 255
points: `calculateExpectedPath s ≥ 2 (ln 254 + 0.5772156649) - 2`. -/
noncomputable def leafCorrectionBound : ℝ := 2 * (Real.log 254 + 0.5772156649) - 2

/-- A batch of two readings (fewer than 10). -/
def smallBatch : List SensorPoint := [basePoint, oddPoint]

/-- A concrete tree-randomness oracle (constant choices). -/
noncomputable def zeroTreeRng : ℕ → TreeRng :=
  fun _ => ⟨fun _ => Feature.kwhM3, fun _ => 0⟩

/-- A second concrete oracle, distinct from `zeroTreeRng`. -/
noncomputable def oneTreeRng : ℕ → TreeRng :=
  fun _ => ⟨fun _ => Feature.debit, fun _ => 1⟩

end IForest

namespace Forecast

/-- Claim C7: for every history length and holiday flag, the forecaster's
confidence equals 0.70, plus 0.15 when the history has at least 168 points,
else plus 0.08 when it has at least 72 points, minus 0.10 on a holiday,
clamped to `[0.5, 0.95]`; in particular the returned confidence always lies
in `[0.5, 0.95]`. -/
theorem calculateConfidence_formula_and_bounds (n : ℕ) (isHoliday : Bool) :
    calculateConfidence n isHoliday =
      min (95/100) (max (1/2)
        ((7/10 : ℚ) + (if 168 ≤ n then 15/100 else if 72 ≤ n then 8/100 else 0)
          - (if isHoliday then 1/10 else 0))) ∧
    1/2 ≤ calculateConfidence n isHoliday ∧
    calculateConfidence n isHoliday ≤ 95/100 := by
  refine ⟨?_, ?_, ?_⟩
  · unfold calculateConfidence
    split_ifs <;> norm_num
  · unfold calculateConfidence
    exact le_min (by norm_num) (le_max_left _ _)
  · unfold calculateConfidence
    exact min_le_left _ _

end Forecast

namespace Forecast

/-- Reading inside a constant list. -/
theorem getD_replicate_lt (v d : ℚ) (n i : ℕ) (h : i < n) :
    (List.replicate n v).getD i d = v := by
  simp [List.getD_eq_getElem?_getD, List.getElem?_replicate, h]

/-- Claim C9: on a history of exactly 168 copies of `v`, the extracted
daily pattern has 24 entries, every one equal to `v` (the same-hour average
of the 7 complete days). -/
theorem extractDailyPattern_constant (v : ℚ) :
    extractDailyPattern (List.replicate 168 v) = List.replicate 24 v := by
  have h1 : extractDailyPattern (List.replicate 168 v) =
      (List.range 24).map (fun hour =>
        (((List.range 7).map fun day =>
          if day * 24 + hour < 168 then (List.replicate 168 v).getD (day * 24 + hour) 0
          else 0).sum) / ((7 : ℕ) : ℚ)) := by
    unfold extractDailyPattern
    rw [List.length_replicate]
    rw [if_neg (by omega)]
  rw [h1]
  have hmap : ∀ hour ∈ List.range 24,
      (((List.range 7).map fun day =>
        if day * 24 + hour < 168 then (List.replicate 168 v).getD (day * 24 + hour) 0
        else 0).sum) / ((7 : ℕ) : ℚ) = v := by
    intro hour hh
    rw [List.mem_range] at hh
    have hconst : ((List.range 7).map fun day =>
        if day * 24 + hour < 168 then (List.replicate 168 v).getD (day * 24 + hour) 0
        else 0) = (List.range 7).map fun _ => v := by
      apply List.map_congr_left
      intro day hd
      rw [List.mem_range] at hd
      have hidx : day * 24 + hour < 168 := by omega
      rw [if_pos hidx, getD_replicate_lt v 0 168 _ hidx]
    rw [hconst, List.map_const', List.length_range, List.sum_replicate, nsmul_eq_mul]
    norm_num
  calc (List.range 24).map (fun hour =>
        (((List.range 7).map fun day =>
          if day * 24 + hour < 168 then (List.replicate 168 v).getD (day * 24 + hour) 0
          else 0).sum) / ((7 : ℕ) : ℚ))
      = (List.range 24).map fun _ => v := List.map_congr_left hmap
    _ = List.replicate 24 v := by rw [List.map_const', List.length_range]

/-- Unfolding of `percentErrors` on matching heads. -/
theorem percentErrors_cons (p a : ℚ) (ps as : List ℚ) :
    percentErrors (p :: ps) (a :: as) = percentError p a :: percentErrors ps as := rfl

/-- Replacing the predicted value at an index whose actual value is not
strictly positive does not change any percentage error. -/
theorem percentErrors_set (q : ℚ) :
    ∀ (predicted actual : List ℚ) (i : ℕ), i < actual.length →
      actual.getD i 1 ≤ 0 → predicted.length = actual.length →
      percentErrors (predicted.set i q) actual = percentErrors predicted actual := by
  intro predicted
  induction predicted with
  | nil =>
    intro actual i hi hga hlen
    have hact : actual = [] := by
      cases actual with
      | nil => rfl
      | cons a as => simp at hlen
    subst hact
    simp at hi
  | cons p ps ih =>
    intro actual i hi hga hlen
    cases actual with
    | nil => simp at hi
    | cons a as =>
      cases i with
      | zero =>
        rw [List.set_cons_zero, percentErrors_cons, percentErrors_cons]
        have ha0 : a ≤ 0 := by simpa using hga
        have hpe : percentError q a = percentError p a := by
          unfold percentError
          rw [if_neg (not_lt.mpr ha0), if_neg (not_lt.mpr ha0)]
        rw [hpe]
      | succ j =>
        rw [List.set_cons_succ, percentErrors_cons, percentErrors_cons]
        have hj : j < as.length := by simpa using hi
        have haj : as.getD j 1 ≤ 0 := by simpa using hga
        have hlj : ps.length = as.length := by simpa using hlen
        rw [ih as j hj haj hlj]

/-- Claim C10: in `calculatePredictionAccuracy` with equal-length non-empty
arrays, an index whose actual value is not strictly positive contributes a
percentage error of 0, is therefore counted toward the within-5-percent
ratio, and the `within5Percent` and `mape` outputs are unchanged by an
arbitrary replacement of the predicted value at that index (only the RMSE
reflects the error there). -/
theorem calculatePredictionAccuracy_nonpositive_actual
    (predicted actual : List ℚ) (i : ℕ) (q : ℚ)
    (hlen : predicted.length = actual.length) (hne : predicted ≠ [])
    (hi : i < actual.length) (ha : actual.getD i 1 ≤ 0) :
    percentError (predicted.getD i 0) (actual.getD i 0) = 0 ∧
    1 ≤ within5Count predicted actual ∧
    (calculatePredictionAccuracy (predicted.set i q) actual).within5Percent =
      (calculatePredictionAccuracy predicted actual).within5Percent ∧
    (calculatePredictionAccuracy (predicted.set i q) actual).mape =
      (calculatePredictionAccuracy predicted actual).mape := by
  have hip : i < predicted.length := hlen ▸ hi
  have hgetA : actual.getD i 1 = actual[i] := List.getD_eq_getElem actual 1 hi
  have hA0 : actual[i] ≤ 0 := hgetA ▸ ha
  have hpe0 : percentError (predicted.getD i 0) (actual.getD i 0) = 0 := by
    rw [List.getD_eq_getElem actual 0 hi]
    unfold percentError
    rw [if_neg (not_lt.mpr hA0)]
  refine ⟨hpe0, ?_, ?_, ?_⟩
  · have hlpe : i < (percentErrors predicted actual).length := by
      unfold percentErrors
      rw [List.length_map, List.length_zip]
      omega
    have hval : (percentErrors predicted actual)[i] = 0 := by
      unfold percentErrors
      rw [List.getElem_map]
      rw [List.getElem_zip]
      have hz : percentError predicted[i] actual[i] = 0 := by
        unfold percentError
        rw [if_neg (not_lt.mpr hA0)]
      exact hz
    have hmem : (0 : ℚ) ∈ percentErrors predicted actual := hval ▸ List.getElem_mem hlpe
    have hpos : 0 < within5Count predicted actual := by
      unfold within5Count
      exact List.countP_pos_iff.mpr ⟨0, hmem, by norm_num⟩
    omega
  · have hg : ¬(predicted.length ≠ actual.length ∨ predicted.length = 0) := by
      push_neg
      exact ⟨hlen, fun h0 => hne (List.length_eq_zero.mp h0)⟩
    have hg2 : ¬((predicted.set i q).length ≠ actual.length ∨
        (predicted.set i q).length = 0) := by
      rw [List.length_set]
      exact hg
    unfold calculatePredictionAccuracy
    rw [if_neg hg, if_neg hg2]
    simp only
    unfold within5Count
    rw [percentErrors_set q predicted actual i hi ha hlen, List.length_set]
  · have hg : ¬(predicted.length ≠ actual.length ∨ predicted.length = 0) := by
      push_neg
      exact ⟨hlen, fun h0 => hne (List.length_eq_zero.mp h0)⟩
    have hg2 : ¬((predicted.set i q).length ≠ actual.length ∨
        (predicted.set i q).length = 0) := by
      rw [List.length_set]
      exact hg
    unfold calculatePredictionAccuracy
    rw [if_neg hg, if_neg hg2]
    simp only
    rw [percentErrors_set q predicted actual i hi ha hlen, List.length_set]

/-- Witness for C10 at `predicted = [10, 7]`, `actual = [0, 7]`, index 0,
with replacement value 1000. -/
theorem calculatePredictionAccuracy_nonpositive_actual_witness :
    percentError (([10, 7] : List ℚ).getD 0 0) (([0, 7] : List ℚ).getD 0 0) = 0 ∧
    1 ≤ within5Count [10, 7] [0, 7] ∧
    (calculatePredictionAccuracy (([10, 7] : List ℚ).set 0 1000) [0, 7]).within5Percent =
      (calculatePredictionAccuracy [10, 7] [0, 7]).within5Percent ∧
    (calculatePredictionAccuracy (([10, 7] : List ℚ).set 0 1000) [0, 7]).mape =
      (calculatePredictionAccuracy [10, 7] [0, 7]).mape :=
  calculatePredictionAccuracy_nonpositive_actual [10, 7] [0, 7] 0 1000 (by decide)
    (by decide) (by decide) (by decide)

end Forecast

namespace Nsga2

/-- Evaluation never touches the chromosome. -/
theorem evaluateIndividual_chromosome (individual : Individual)
    (params : PumpScheduleParams) :
    (evaluateIndividual individual params).chromosome = individual.chromosome := rfl

/-- Freshly initialized chromosomes are wellformed. -/
theorem validChrom_initializePopulation (size maxPumps : ℕ) (rng : Rng) :
    ∀ ind ∈ initializePopulation size maxPumps rng,
      ValidChrom maxPumps ind.chromosome := by
  intro ind hind
  unfold initializePopulation at hind
  rw [List.mem_map] at hind
  obtain ⟨i, _, rfl⟩ := hind
  constructor
  · simp
  · intro g hg
    rw [List.mem_map] at hg
    obtain ⟨j, _, rfl⟩ := hg
    exact Nat.lt_succ_iff.mp (Nat.mod_lt _ (Nat.succ_pos maxPumps))

/-- Tournament selection picks a member of a non-empty population. -/
theorem tournamentSelection_mem (population : List Individual) (draw : ℕ → ℕ)
    (h : population ≠ []) : tournamentSelection population draw ∈ population := by
  have hlen : 0 < population.length := List.length_pos.mpr h
  have hmem : ∀ k : ℕ,
      population.getD (k % population.length) defaultIndividual ∈ population := by
    intro k
    rw [List.getD_eq_getElem population defaultIndividual (Nat.mod_lt _ hlen)]
    exact List.getElem_mem _
  simp only [tournamentSelection]
  split_ifs <;> exact hmem _

/-- Single-point crossover of wellformed chromosomes is wellformed. -/
theorem validChrom_crossover_chrom (maxPumps pt : ℕ) (c1 c2 : List ℕ)
    (hpt : pt < 24) (h1 : ValidChrom maxPumps c1) (h2 : ValidChrom maxPumps c2) :
    ValidChrom maxPumps (c1.take pt ++ c2.drop pt) := by
  obtain ⟨hl1, hb1⟩ := h1
  obtain ⟨hl2, hb2⟩ := h2
  constructor
  · rw [List.length_append, List.length_take, List.length_drop, hl1, hl2]
    simp only [Nat.min_def]
    split_ifs <;> omega
  · intro g hg
    rw [List.mem_append] at hg
    rcases hg with hg | hg
    · exact hb1 g (List.mem_of_mem_take hg)
    · exact hb2 g (List.mem_of_mem_drop hg)

/-- Mutation preserves wellformedness. -/
theorem validChrom_mutate (individual : Individual) (pt gene maxPumps : ℕ)
    (h : ValidChrom maxPumps individual.chromosome) :
    ValidChrom maxPumps (mutate individual pt gene maxPumps).chromosome := by
  obtain ⟨hl, hb⟩ := h
  have hc : (mutate individual pt gene maxPumps).chromosome
      = individual.chromosome.set pt (gene % (maxPumps + 1)) := rfl
  rw [hc]
  constructor
  · rw [List.length_set]
    exact hl
  · intro g hg
    rcases List.mem_or_eq_of_mem_set hg with hg2 | rfl
    · exact hb g hg2
    · exact Nat.lt_succ_iff.mp (Nat.mod_lt _ (Nat.succ_pos maxPumps))

/-- Every member produced by `makePair` has a wellformed chromosome. -/
theorem validChrom_makePair (population : List Individual) (rng : Rng)
    (crossoverRate : ℚ) (gen k maxPumps : ℕ) (hne : population ≠ [])
    (hpop : ∀ ind ∈ population, ValidChrom maxPumps ind.chromosome) :
    ∀ x ∈ makePair population rng crossoverRate gen k,
      ValidChrom maxPumps x.chromosome := by
  intro x hx
  have h1 := hpop _ (tournamentSelection_mem population (rng.tourDraw gen k 0) hne)
  have h2 := hpop _ (tournamentSelection_mem population (rng.tourDraw gen k 1) hne)
  have hpt : rng.crossPoint gen k % 24 < 24 := Nat.mod_lt _ (by norm_num)
  simp only [makePair] at hx
  split_ifs at hx
  · simp only [List.mem_cons, List.not_mem_nil, or_false] at hx
    rcases hx with rfl | rfl
    · exact validChrom_crossover_chrom maxPumps _ _ _ hpt h1 h2
    · exact validChrom_crossover_chrom maxPumps _ _ _ hpt h2 h1
  · simp only [List.mem_cons, List.not_mem_nil, or_false] at hx
    rcases hx with rfl | rfl
    · exact h1
    · exact h2

/-- The mutation pass preserves wellformedness of every chromosome. -/
theorem validChrom_mutationPass (rng : Rng) (mutationRate : ℚ)
    (eliteCount maxPumps gen : ℕ) :
    ∀ (l : List Individual) (i : ℕ),
      (∀ ind ∈ l, ValidChrom maxPumps ind.chromosome) →
      ∀ x ∈ mutationPass rng mutationRate eliteCount maxPumps gen i l,
        ValidChrom maxPumps x.chromosome := by
  intro l
  induction l with
  | nil =>
    intro i _ x hx
    simp [mutationPass] at hx
  | cons ind rest ih =>
    intro i hl x hx
    rw [mutationPass] at hx
    rcases List.mem_cons.mp hx with rfl | hx2
    · split
      · exact validChrom_mutate _ _ _ _ (hl ind (List.mem_cons_self _ _))
      · exact hl ind (List.mem_cons_self _ _)
    · exact ih (i + 1) (fun j hj => hl j (List.mem_cons_of_mem _ hj)) x hx2

/-- All offspring have wellformed chromosomes. -/
theorem validChrom_makeOffspring (population : List Individual) (rng : Rng)
    (crossoverRate : ℚ) (populationSize gen maxPumps : ℕ) (hne : population ≠ [])
    (hpop : ∀ ind ∈ population, ValidChrom maxPumps ind.chromosome) :
    ∀ x ∈ makeOffspring population rng crossoverRate populationSize gen,
      ValidChrom maxPumps x.chromosome := by
  intro x hx
  unfold makeOffspring at hx
  rw [List.mem_flatten] at hx
  obtain ⟨l, hl, hxl⟩ := hx
  rw [List.mem_map] at hl
  obtain ⟨k, _, rfl⟩ := hl
  exact validChrom_makePair population rng crossoverRate gen k maxPumps hne hpop x hxl

/-- One generation preserves wellformedness of every chromosome. -/
theorem validChrom_generationStep (params : PumpScheduleParams) (rng : Rng)
    (populationSize eliteCount : ℕ) (crossoverRate mutationRate : ℚ)
    (maxPumps gen : ℕ) (population : List Individual)
    (hlen : population.length = populationSize)
    (hpop : ∀ ind ∈ population, ValidChrom maxPumps ind.chromosome) :
    ∀ x ∈ generationStep params rng populationSize eliteCount crossoverRate
        mutationRate maxPumps gen population,
      ValidChrom maxPumps x.chromosome := by
  intro x hx
  simp only [generationStep] at hx
  have hcomb := List.mem_of_mem_take hx
  rw [List.mem_mergeSort, List.mem_append] at hcomb
  rcases hcomb with hx2 | hx2
  · exact hpop x hx2
  · rw [List.mem_map] at hx2
    obtain ⟨y, hy, rfl⟩ := hx2
    rw [evaluateIndividual_chromosome]
    rcases Nat.eq_zero_or_pos populationSize with hz | hpos
    · subst hz
      simp [makeOffspring, mutationPass] at hy
    · have hne : population ≠ [] := by
        intro hnil
        rw [hnil] at hlen
        simp at hlen
        omega
      exact validChrom_mutationPass rng mutationRate eliteCount maxPumps gen _ 0
        (validChrom_makeOffspring population rng crossoverRate populationSize gen
          maxPumps hne hpop) y hy

/-- The population keeps its configured size across generations. -/
theorem evolve_length (params : PumpScheduleParams) (rng : Rng)
    (populationSize eliteCount : ℕ) (crossoverRate mutationRate : ℚ)
    (maxPumps : ℕ) : ∀ g, (evolve params rng populationSize eliteCount
      crossoverRate mutationRate maxPumps g).length = populationSize := by
  intro g
  induction g with
  | zero =>
    show ((initializePopulation populationSize maxPumps rng).map _).length = _
    rw [List.length_map]
    unfold initializePopulation
    rw [List.length_map, List.length_range]
  | succ g ih =>
    show (generationStep params rng populationSize eliteCount crossoverRate
      mutationRate maxPumps g _).length = _
    simp only [generationStep]
    rw [List.length_take, List.length_mergeSort, List.length_append, ih]
    exact inf_eq_left.mpr (Nat.le_add_right _ _)

/-- Every chromosome in every generation is wellformed. -/
theorem validChrom_evolve (params : PumpScheduleParams) (rng : Rng)
    (populationSize eliteCount : ℕ) (crossoverRate mutationRate : ℚ)
    (maxPumps : ℕ) : ∀ g, ∀ ind ∈ evolve params rng populationSize eliteCount
      crossoverRate mutationRate maxPumps g, ValidChrom maxPumps ind.chromosome := by
  intro g
  induction g with
  | zero =>
    intro ind hind
    rcases List.mem_map.mp hind with ⟨y, hy, rfl⟩
    rw [evaluateIndividual_chromosome]
    exact validChrom_initializePopulation populationSize maxPumps rng y hy
  | succ g ih =>
    intro ind hind
    exact validChrom_generationStep params rng populationSize eliteCount
      crossoverRate mutationRate maxPumps g _
      (evolve_length params rng populationSize eliteCount crossoverRate
        mutationRate maxPumps g) ih ind hind

/-- A result of the optimizer is built from a member of the final
population: its planning is that member's chromosome and its reservoir
trajectory is the corresponding simulation. -/
theorem optimizePumpSchedule_shape (params : PumpScheduleParams)
    (options : Nsga2Options) (rng : Rng) (res : OptimizedSchedule)
    (h : res ∈ optimizePumpSchedule params options rng) :
    ∃ best ∈ evolve params rng (options.populationSize.getD 50)
      (options.eliteCount.getD 5) (options.crossoverRate.getD (9/10))
      (options.mutationRate.getD (1/10)) params.constraints.maxActivePumps
      (options.generations.getD 20),
      res.planning = best.chromosome ∧
      res.reservoirLevels = simulateReservoir best.chromosome params := by
  unfold optimizePumpSchedule at h
  simp only at h
  rcases hh : (evolve params rng (options.populationSize.getD 50)
      (options.eliteCount.getD 5) (options.crossoverRate.getD (9/10))
      (options.mutationRate.getD (1/10)) params.constraints.maxActivePumps
      (options.generations.getD 20)).head? with _ | best
  · rw [hh] at h
    simp at h
  · rw [hh] at h
    rw [Option.mem_some_iff] at h
    subst h
    exact ⟨best, List.mem_of_mem_head? (Option.mem_def.mpr hh), rfl, rfl⟩

/-- Claim C1: for every valid input and any options, the returned planning
has exactly 24 entries, each an integer in `[0, maxActivePumps]`; the
range/length invariant is preserved by population initialization,
crossover and mutation. -/
theorem optimizePumpSchedule_planning_valid (params : PumpScheduleParams)
    (options : Nsga2Options) (rng : Rng)
    (hpumps : params.pumps ≠ []) (hdemand : params.demand.length = 24)
    (htariffs : params.tariffs.length = 24)
    (hmax : 1 ≤ params.constraints.maxActivePumps) :
    ∀ res ∈ optimizePumpSchedule params options rng,
      res.planning.length = 24 ∧
      ∀ g ∈ res.planning, g ≤ params.constraints.maxActivePumps := by
  intro res hres
  obtain ⟨best, hbest, hplan, _⟩ :=
    optimizePumpSchedule_shape params options rng res hres
  have hvalid := validChrom_evolve params rng (options.populationSize.getD 50)
    (options.eliteCount.getD 5) (options.crossoverRate.getD (9/10))
    (options.mutationRate.getD (1/10)) params.constraints.maxActivePumps
    (options.generations.getD 20) best hbest
  unfold ValidChrom at hvalid
  rw [hplan]
  exact hvalid

/-- Witness for C1: a concrete run of the optimizer (one individual, zero
generations, all-zero oracle) with every hypothesis discharged. -/
theorem optimizePumpSchedule_planning_valid_witness :
    sampleParams.pumps ≠ [] ∧ sampleParams.demand.length = 24 ∧
    sampleParams.tariffs.length = 24 ∧
    1 ≤ sampleParams.constraints.maxActivePumps ∧
    sampleResult.planning.length = 24 := by
  refine ⟨by decide, by decide, by decide, by decide, ?_⟩
  have hsome : (optimizePumpSchedule sampleParams sampleOptions zeroRng).isSome = true := rfl
  rcases hopt : optimizePumpSchedule sampleParams sampleOptions zeroRng with _ | res
  · rw [hopt] at hsome
    simp at hsome
  · have hres := optimizePumpSchedule_planning_valid sampleParams sampleOptions zeroRng
      (by decide) (by decide) (by decide) (by decide) res (Option.mem_def.mpr hopt)
    have hr : sampleResult = res := by
      unfold sampleResult
      rw [hopt]
      rfl
    rw [hr]
    exact hres.1

end Nsga2

namespace Nsga2

/-- Unfolding of `bestFitness` on a cons. -/
theorem bestFitness_cons (i : Individual) (l : List Individual) :
    bestFitness (i :: l) = min i.fitness (bestFitness l) := rfl

/-- The best fitness is a lower bound on every member. -/
theorem bestFitness_le_of_mem {population : List Individual} {i : Individual}
    (h : i ∈ population) : bestFitness population ≤ i.fitness := by
  induction population with
  | nil => simp at h
  | cons j rest ih =>
    rw [bestFitness_cons]
    rcases List.mem_cons.mp h with rfl | h2
    · exact min_le_left _ _
    · exact le_trans (min_le_right _ _) (ih h2)

/-- The best fitness of a non-empty population is attained by a member. -/
theorem exists_fitness_eq_bestFitness {population : List Individual}
    (h : population ≠ []) :
    ∃ i ∈ population, i.fitness = bestFitness population := by
  induction population with
  | nil => exact absurd rfl h
  | cons j rest ih =>
    rcases eq_or_ne rest [] with rfl | hne
    · refine ⟨j, List.mem_cons_self _ _, ?_⟩
      rw [bestFitness_cons]
      exact (min_eq_left le_top).symm
    · obtain ⟨i, hi, heq⟩ := ih hne
      rw [bestFitness_cons]
      rcases le_total j.fitness (bestFitness rest) with hle | hle
      · exact ⟨j, List.mem_cons_self _ _, (min_eq_left hle).symm⟩
      · exact ⟨i, List.mem_cons_of_mem _ hi, by rw [min_eq_right hle, heq]⟩

/-- The survivor comparator is transitive. -/
theorem fitnessLe_trans : ∀ a b c : Individual,
    fitnessLe a b = true → fitnessLe b c = true → fitnessLe a c = true := by
  intro a b c hab hbc
  simp only [fitnessLe, decide_eq_true_eq] at hab hbc ⊢
  exact le_trans hab hbc

/-- The survivor comparator is total. -/
theorem fitnessLe_total : ∀ a b : Individual,
    (fitnessLe a b || fitnessLe b a) = true := by
  intro a b
  simp only [fitnessLe, Bool.or_eq_true, decide_eq_true_eq]
  exact le_total _ _

/-- Merging any offspring into a population, sorting ascending by fitness
and truncating back to the population size never loses the incumbent best
fitness. -/
theorem bestFitness_merge_sort_take (population offspring : List Individual)
    (k : ℕ) (hlen : population.length = k) :
    bestFitness (((population ++ offspring).mergeSort fitnessLe).take k) ≤
      bestFitness population := by
  cases k with
  | zero =>
    have hnil : population = [] := List.length_eq_zero.mp hlen
    subst hnil
    simp [bestFitness]
  | succ m =>
    have hne : population ≠ [] := by
      intro hnil
      rw [hnil] at hlen
      simp at hlen
    obtain ⟨i, hi, hieq⟩ := exists_fitness_eq_bestFitness hne
    have hicomb : i ∈ (population ++ offspring).mergeSort fitnessLe := by
      rw [List.mem_mergeSort]
      exact List.mem_append_left _ hi
    obtain ⟨h0, t, hht⟩ := List.exists_cons_of_ne_nil (List.ne_nil_of_mem hicomb)
    have hsorted := List.sorted_mergeSort fitnessLe_trans fitnessLe_total
      (population ++ offspring)
    rw [hht] at hsorted
    have hh0 : h0.fitness ≤ i.fitness := by
      rcases List.mem_cons.mp (hht ▸ hicomb) with rfl | hmem
      · exact le_refl _
      · have hrel := (List.pairwise_cons.mp hsorted).1 i hmem
        simpa [fitnessLe, decide_eq_true_eq] using hrel
    rw [hht, List.take_succ_cons]
    calc bestFitness (h0 :: t.take m) ≤ h0.fitness :=
          bestFitness_le_of_mem (List.mem_cons_self _ _)
      _ ≤ i.fitness := hh0
      _ = bestFitness population := hieq

/-- Claim C5: for any oracle (fixed random seed), the best fitness present
in the population never increases from one generation to the next: merging
parents with evaluated offspring, sorting ascending by fitness and
truncating to the population size retains the incumbent best. -/
theorem evolve_bestFitness_monotone (params : PumpScheduleParams) (rng : Rng)
    (populationSize eliteCount : ℕ) (crossoverRate mutationRate : ℚ)
    (maxPumps g : ℕ) :
    bestFitness (evolve params rng populationSize eliteCount crossoverRate
      mutationRate maxPumps (g + 1)) ≤
    bestFitness (evolve params rng populationSize eliteCount crossoverRate
      mutationRate maxPumps g) := by
  have hlen := evolve_length params rng populationSize eliteCount crossoverRate
    mutationRate maxPumps g
  show bestFitness (generationStep params rng populationSize eliteCount
    crossoverRate mutationRate maxPumps g _) ≤ _
  simp only [generationStep]
  exact bestFitness_merge_sort_take _ _ _ hlen

end Nsga2

namespace Nsga2

/-- The hourly simulation emits exactly one level per unit of fuel. -/
theorem simGo_length (planning : List ℕ) (maxFlow : ℚ) (demand : List ℚ) :
    ∀ (fuel hour : ℕ) (cur : ℚ),
      (simGo planning maxFlow demand cur hour fuel).length = fuel := by
  intro fuel
  induction fuel with
  | zero => intro hour cur; rfl
  | succ f ih =>
    intro hour cur
    rw [simGo]
    rw [List.length_cons, ih]

/-- Every level the simulation emits is clamped into `[0, 100]`. -/
theorem simGo_mem_bounds (planning : List ℕ) (maxFlow : ℚ) (demand : List ℚ) :
    ∀ (fuel hour : ℕ) (cur x : ℚ),
      x ∈ simGo planning maxFlow demand cur hour fuel → 0 ≤ x ∧ x ≤ 100 := by
  intro fuel
  induction fuel with
  | zero =>
    intro hour cur x hx
    simp [simGo] at hx
  | succ f ih =>
    intro hour cur x hx
    rw [simGo] at hx
    rcases List.mem_cons.mp hx with rfl | hx2
    · exact ⟨le_max_left 0 _, max_le (by norm_num) (min_le_left _ _)⟩
    · exact ih (hour + 1) _ x hx2

/-- Claim C8: for every input whose reservoir level lies in `[0, 100]`, the
returned trajectory has exactly 25 entries — the starting level followed by
one value per hour — and every entry after the first is clamped into
`[0, 100]` when reported (the running level used for evaluation stays
unclamped). -/
theorem optimizePumpSchedule_reservoirLevels (params : PumpScheduleParams)
    (options : Nsga2Options) (rng : Rng)
    (hlo : 0 ≤ params.reservoirLevel) (hhi : params.reservoirLevel ≤ 100) :
    ∀ res ∈ optimizePumpSchedule params options rng,
      res.reservoirLevels.length = 25 ∧
      res.reservoirLevels.head? = some params.reservoirLevel ∧
      ∀ x ∈ res.reservoirLevels.tail, 0 ≤ x ∧ x ≤ 100 := by
  intro res hres
  obtain ⟨best, _, _, hlv⟩ := optimizePumpSchedule_shape params options rng res hres
  rw [hlv]
  unfold simulateReservoir
  refine ⟨?_, rfl, ?_⟩
  · rw [List.length_cons, simGo_length]
  · intro x hx
    rw [List.tail_cons] at hx
    exact simGo_mem_bounds _ _ _ 24 0 _ x hx

/-- Witness for C8: the sample run, with the level hypotheses discharged. -/
theorem optimizePumpSchedule_reservoirLevels_witness :
    0 ≤ sampleParams.reservoirLevel ∧ sampleParams.reservoirLevel ≤ 100 ∧
    sampleResult.reservoirLevels.length = 25 ∧
    sampleResult.reservoirLevels.head? = some sampleParams.reservoirLevel := by
  refine ⟨by norm_num [sampleParams], by norm_num [sampleParams], ?_⟩
  have hsome : (optimizePumpSchedule sampleParams sampleOptions zeroRng).isSome = true := rfl
  rcases hopt : optimizePumpSchedule sampleParams sampleOptions zeroRng with _ | res
  · rw [hopt] at hsome
    simp at hsome
  · have hres := optimizePumpSchedule_reservoirLevels sampleParams sampleOptions zeroRng
      (by norm_num [sampleParams]) (by norm_num [sampleParams]) res
      (Option.mem_def.mpr hopt)
    have hr : sampleResult = res := by
      unfold sampleResult
      rw [hopt]
      rfl
    rw [hr]
    exact ⟨hres.1, hres.2.1⟩

end Nsga2

namespace NsgaJS

/-- Claim C4 (evidence): called on parameters whose demand array has 23
entries (everything else valid), `evaluateIndividual` silently computes a
`NaN` fitness and cost — `demand[23]` is `undefined`, the arithmetic on it
yields `NaN`, and no validation rejects the input — instead of failing fast
with a descriptive error. -/
theorem evaluateIndividualJS_short_demand_nan :
    (evaluateIndividualJS probeIndividual shortDemandParams).fitness = JQ.nan ∧
    (evaluateIndividualJS probeIndividual shortDemandParams).cost = JQ.nan := by
  constructor <;> rfl

end NsgaJS

namespace IForest

/-- Claim C6: for every batch of fewer than 10 readings, the detector
returns exactly one fallback result per reading — score 0, no anomaly,
confidence 0, cause "Insufficient data", zero feature deviations — and the
output does not depend on the tree randomness (no trees are built). -/
theorem detectAnomalies_insufficient_data (data : List SensorPoint)
    (rng rng2 : ℕ → TreeRng) (h : data.length < 10) :
    detectAnomalies data rng = data.map insufficientDataResult ∧
    detectAnomalies data rng = detectAnomalies data rng2 := by
  constructor
  · unfold detectAnomalies
    rw [if_pos h]
  · unfold detectAnomalies
    rw [if_pos h, if_pos h]

/-- Witness for C6 at a concrete two-reading batch and two distinct
oracles. -/
theorem detectAnomalies_insufficient_data_witness :
    smallBatch.length < 10 ∧
    detectAnomalies smallBatch zeroTreeRng = smallBatch.map insufficientDataResult ∧
    detectAnomalies smallBatch zeroTreeRng = detectAnomalies smallBatch oneTreeRng :=
  ⟨by decide,
    (detectAnomalies_insufficient_data smallBatch zeroTreeRng oneTreeRng (by decide)).1,
    (detectAnomalies_insufficient_data smallBatch zeroTreeRng oneTreeRng (by decide)).2⟩

/-- NaN absorbs on the right of JavaScript addition. -/
theorem jadd_nan_right (a : JsNum) : jadd a .nan = .nan := by
  cases a <;> rfl

/-- The baseline kWh/m³ statistics of the constant batch: mean 1, standard
deviation 0. -/
theorem constantBatch_kwh_stats :
    (calculateBaseline constantBatch).kwhM3.mean = 1 ∧
    (calculateBaseline constantBatch).kwhM3.std = 0 := by
  have hvals : constantBatch.map SensorPoint.kwhM3 = List.replicate 10 (1 : ℝ) := by
    unfold constantBatch
    rw [List.map_replicate]
    rfl
  unfold calculateBaseline calculateStats
  rw [hvals]
  simp only [List.length_replicate, List.sum_replicate, nsmul_eq_mul, List.map_replicate]
  constructor
  · norm_num
  · rw [Real.sqrt_eq_zero']
    push_cast
    norm_num

/-- The baseline debit statistics of the constant batch. -/
theorem constantBatch_debit_stats :
    (calculateBaseline constantBatch).debit.mean = 1 ∧
    (calculateBaseline constantBatch).debit.std = 0 := by
  have hvals : constantBatch.map SensorPoint.debit = List.replicate 10 (1 : ℝ) := by
    unfold constantBatch
    rw [List.map_replicate]
    rfl
  unfold calculateBaseline calculateStats
  rw [hvals]
  simp only [List.length_replicate, List.sum_replicate, nsmul_eq_mul, List.map_replicate]
  constructor
  · norm_num
  · rw [Real.sqrt_eq_zero']
    push_cast
    norm_num

/-- The z-score division `0 / 0` is JavaScript `NaN`. -/
theorem jsdiv_zero_zero : jsdiv 0 0 = .nan := by
  unfold jsdiv
  rw [if_pos rfl, if_pos rfl]

/-- On the constant batch, the anomaly score of the (unique) reading is
`NaN` for every forest. -/
theorem calculateAnomalyScore_constant (trees : List ITree) :
    calculateAnomalyScore basePoint trees (calculateBaseline constantBatch) = .nan := by
  unfold calculateAnomalyScore
  rw [constantBatch_kwh_stats.1, constantBatch_kwh_stats.2]
  have habs : |basePoint.kwhM3 - 1| = 0 := by
    show |(1 : ℝ) - 1| = 0
    norm_num
  rw [habs, jsdiv_zero_zero]
  rfl

/-- On the constant batch, both feature deviations and the combined score
are `NaN`. -/
theorem calculateFeatureDeviations_constant :
    calculateFeatureDeviations basePoint (calculateBaseline constantBatch) =
      ⟨.nan, .nan, .nan⟩ := by
  unfold calculateFeatureDeviations
  rw [constantBatch_kwh_stats.1, constantBatch_kwh_stats.2,
    constantBatch_debit_stats.1, constantBatch_debit_stats.2]
  have habs : |basePoint.kwhM3 - 1| = 0 := by
    show |(1 : ℝ) - 1| = 0
    norm_num
  have habs2 : |basePoint.debit - 1| = 0 := by
    show |(1 : ℝ) - 1| = 0
    norm_num
  rw [habs, habs2, jsdiv_zero_zero]
  rfl

/-- Claim C2 (evidence): on a batch of 10 identical readings the kWh/m³
standard deviation is 0, the z-score is the JavaScript division `0 / 0 =
NaN`, and that `NaN` propagates into every returned score, confidence and
feature deviation — the code does not special-case a zero standard
deviation. -/
theorem detectAnomalies_constant_batch_nan (rng : ℕ → TreeRng) :
    (detectAnomalies constantBatch rng).map
        (fun r => (r.score, r.confidence, r.features.kwhM3Deviation,
          r.features.debitDeviation, r.features.combinedScore)) =
      List.replicate 10 (JsNum.nan, JsNum.nan, JsNum.nan, JsNum.nan, JsNum.nan) := by
  have hlen : ¬ constantBatch.length < 10 := by
    simp [constantBatch]
  have hscore := calculateAnomalyScore_constant (buildIsolationForest constantBatch 50 rng)
  have hfeat := calculateFeatureDeviations_constant
  simp only [detectAnomalies]
  rw [if_neg hlen, List.map_map]
  rw [List.eq_replicate_iff]
  constructor
  · rw [List.length_map]
    simp [constantBatch]
  · intro b hb
    rcases List.mem_map.mp hb with ⟨pt, hpt, rfl⟩
    have hpt2 : pt = basePoint := by
      have hrep : pt ∈ List.replicate 10 basePoint := hpt
      exact List.eq_of_mem_replicate hrep
    subst hpt2
    dsimp only [Function.comp]
    rw [hscore, hfeat]
    rfl

end IForest

namespace IForest

/-- `ln 254 ≥ 5` (since `e^5 < 2.7182818286^5 < 254`). -/
theorem log_254_ge_five : (5 : ℝ) ≤ Real.log 254 := by
  rw [Real.le_log_iff_exp_le (by norm_num)]
  have h1 : Real.exp 5 = Real.exp 1 ^ 5 := by
    rw [Real.exp_one_pow]
    norm_num
  rw [h1]
  calc Real.exp 1 ^ 5 ≤ (2.7182818286 : ℝ) ^ 5 :=
        pow_le_pow_left (Real.exp_pos 1).le Real.exp_one_lt_d9.le 5
    _ ≤ 254 := by norm_num

/-- The leaf correction bound is at least 9. -/
theorem leafCorrectionBound_ge_nine : (9 : ℝ) ≤ leafCorrectionBound := by
  unfold leafCorrectionBound
  have := log_254_ge_five
  norm_num
  linarith

/-- The correction term of a leaf holding at least 255 points is at least
`leafCorrectionBound`. -/
theorem calculateExpectedPath_lower (s : ℕ) (hs : 255 ≤ s) :
    leafCorrectionBound ≤ calculateExpectedPath s := by
  unfold calculateExpectedPath leafCorrectionBound
  rw [if_neg (by omega)]
  have hs1 : (255 : ℝ) ≤ (s : ℝ) := by exact_mod_cast hs
  have hlog : Real.log 254 ≤ Real.log ((s : ℝ) - 1) :=
    Real.log_le_log (by norm_num) (by linarith)
  have hfrac : 2 * ((s : ℝ) - 1) / (s : ℝ) ≤ 2 := by
    rw [div_le_iff (by linarith)]
    linarith
  linarith

/-- Any point that sits among at least 255 identical copies in the data of
a tree ends in a leaf at the height cap holding all those copies, so its
path length is at least `(maxHeight - currentHeight) + leafCorrectionBound`
below the current node. -/
theorem getPathLength_duplicates_lower (rng : TreeRng) (A : SensorPoint) :
    ∀ (fuel currentHeight maxHeight : ℕ), maxHeight - currentHeight = fuel →
      ∀ (data : List SensorPoint) (path : List Bool) (len : ℕ),
        (List.replicate 255 A).Subperm data →
        (len : ℝ) + ((maxHeight - currentHeight : ℕ) : ℝ) + leafCorrectionBound ≤
          getPathLength A (buildTree rng data currentHeight maxHeight path) len := by
  intro fuel
  induction fuel with
  | zero =>
    intro currentHeight maxHeight hfuel data path len hsub
    have hlen : 255 ≤ data.length := by
      have hl := hsub.length_le
      rwa [List.length_replicate] at hl
    have hcond : data.length ≤ 1 ∨ maxHeight ≤ currentHeight := Or.inr (by omega)
    rw [buildTree, dif_pos hcond]
    unfold getPathLength
    rw [hfuel]
    have hc := calculateExpectedPath_lower data.length (by omega)
    push_cast
    linarith
  | succ f ih =>
    intro currentHeight maxHeight hfuel data path len hsub
    have hlen : 255 ≤ data.length := by
      have hl := hsub.length_le
      rwa [List.length_replicate] at hl
    have hcond : ¬(data.length ≤ 1 ∨ maxHeight ≤ currentHeight) := by
      push_neg
      constructor
      · omega
      · omega
    rw [buildTree, dif_neg hcond]
    unfold getPathLength
    have hcast : ((maxHeight - currentHeight : ℕ) : ℝ) =
        ((maxHeight - (currentHeight + 1) : ℕ) : ℝ) + 1 := by
      have : maxHeight - currentHeight = (maxHeight - (currentHeight + 1)) + 1 := by omega
      rw [this]
      push_cast
      ring
    split
    · rename_i hcmp
      have hpA : (fun d => decide (d.feature (rng.pickFeature path) <
          listMin (data.map (·.feature (rng.pickFeature path))) + rng.roll path *
            (listMax (data.map (·.feature (rng.pickFeature path))) -
              listMin (data.map (·.feature (rng.pickFeature path)))))) A = true :=
        decide_eq_true hcmp
      have hsubL : (List.replicate 255 A).Subperm
          (data.filter fun d => decide (d.feature (rng.pickFeature path) <
            listMin (data.map (·.feature (rng.pickFeature path))) + rng.roll path *
              (listMax (data.map (·.feature (rng.pickFeature path))) -
                listMin (data.map (·.feature (rng.pickFeature path)))))) := by
        have hfr := List.Subperm.filter (fun d => decide (d.feature (rng.pickFeature path) <
            listMin (data.map (·.feature (rng.pickFeature path))) + rng.roll path *
              (listMax (data.map (·.feature (rng.pickFeature path))) -
                listMin (data.map (·.feature (rng.pickFeature path)))))) hsub
        rwa [List.filter_replicate, if_pos hpA] at hfr
      have hih := ih (currentHeight + 1) maxHeight (by omega) _ (false :: path) (len + 1) hsubL
      rw [hcast]
      push_cast at hih ⊢
      linarith
    · rename_i hcmp
      have hpA : (fun d => !decide (d.feature (rng.pickFeature path) <
          listMin (data.map (·.feature (rng.pickFeature path))) + rng.roll path *
            (listMax (data.map (·.feature (rng.pickFeature path))) -
              listMin (data.map (·.feature (rng.pickFeature path)))))) A = true := by
        show (!decide (A.feature (rng.pickFeature path) <
          listMin (data.map (·.feature (rng.pickFeature path))) + rng.roll path *
            (listMax (data.map (·.feature (rng.pickFeature path))) -
              listMin (data.map (·.feature (rng.pickFeature path)))))) = true
        rw [decide_eq_false hcmp]
        rfl
      have hsubR : (List.replicate 255 A).Subperm
          (data.filter fun d => !decide (d.feature (rng.pickFeature path) <
            listMin (data.map (·.feature (rng.pickFeature path))) + rng.roll path *
              (listMax (data.map (·.feature (rng.pickFeature path))) -
                listMin (data.map (·.feature (rng.pickFeature path)))))) := by
        have hfr := List.Subperm.filter (fun d => !decide (d.feature (rng.pickFeature path) <
            listMin (data.map (·.feature (rng.pickFeature path))) + rng.roll path *
              (listMax (data.map (·.feature (rng.pickFeature path))) -
                listMin (data.map (·.feature (rng.pickFeature path)))))) hsub
        rwa [List.filter_replicate, if_pos hpA] at hfr
      have hih := ih (currentHeight + 1) maxHeight (by omega) _ (true :: path) (len + 1) hsubR
      rw [hcast]
      push_cast at hih ⊢
      linarith

end IForest

namespace IForest

/-- A list bounded below termwise is bounded below in sum. -/
theorem list_sum_lower (l : List ℝ) (b : ℝ) (h : ∀ x ∈ l, b ≤ x) :
    (l.length : ℝ) * b ≤ l.sum := by
  induction l with
  | nil => simp
  | cons x xs ih =>
    rw [List.sum_cons, List.length_cons]
    push_cast
    have hb := h x (List.mem_cons_self _ _)
    have hxs := ih fun y hy => h y (List.mem_cons_of_mem _ hy)
    nlinarith [hxs, hb]

/-- The duplicate batch has 256 readings. -/
theorem duplicateBatch_length : duplicateBatch.length = 256 := by
  unfold duplicateBatch
  rw [List.length_append, List.length_replicate]
  rfl

/-- The 255 copies of `basePoint` form a sub-permutation of the batch. -/
theorem replicate_subperm_duplicateBatch :
    (List.replicate 255 basePoint).Subperm duplicateBatch :=
  (List.sublist_append_left _ _).subperm

/-- Every tree of the forest over the duplicate batch gives `basePoint` a
path length of at least `8 + leafCorrectionBound`. -/
theorem forest_paths_lower (rng : ℕ → TreeRng) :
    ∀ t ∈ buildIsolationForest duplicateBatch 50 rng,
      (8 : ℝ) + leafCorrectionBound ≤ getPathLength basePoint t 0 := by
  intro t ht
  simp only [buildIsolationForest] at ht
  rcases List.mem_map.mp ht with ⟨i, _, rfl⟩
  have hmin : (256 : ℕ) ⊓ duplicateBatch.length = 256 := by
    rw [duplicateBatch_length]
    exact min_self 256
  rw [hmin]
  have htake : duplicateBatch.take 256 = duplicateBatch :=
    List.take_of_length_le (by rw [duplicateBatch_length])
  have hclog : Nat.clog 2 256 = 8 := by
    rw [show (256 : ℕ) = 2 ^ 8 by norm_num]
    exact Nat.clog_pow 2 8 (by norm_num)
  rw [htake, hclog]
  have := getPathLength_duplicates_lower (rng i) basePoint 8 0 8 rfl duplicateBatch [] 0
    replicate_subperm_duplicateBatch
  simpa using this

/-- The kWh/m³ standard deviation of the duplicate batch is positive (the
batch holds two distinct kWh/m³ values). -/
theorem duplicateBatch_std_pos : 0 < (calculateBaseline duplicateBatch).kwhM3.std := by
  have hvals : duplicateBatch.map SensorPoint.kwhM3 = List.replicate 255 (1 : ℝ) ++ [2] := by
    unfold duplicateBatch
    rw [List.map_append, List.map_replicate]
    rfl
  simp only [calculateBaseline, calculateStats]
  rw [hvals]
  rw [Real.sqrt_pos]
  apply div_pos
  · rw [List.map_append, List.map_replicate, List.sum_append, List.sum_replicate,
      nsmul_eq_mul]
    simp only [List.map_cons, List.map_nil, List.sum_cons, List.sum_nil]
    rcases eq_or_ne ((List.replicate 255 (1:ℝ) ++ [2]).sum /
        ((List.replicate 255 (1:ℝ) ++ [2]).length : ℝ)) 1 with h1 | h1
    · rw [h1]
      have h2 : (0:ℝ) < ((2:ℝ) - 1) ^ 2 := by norm_num
      have h3 : (0:ℝ) ≤ (255 : ℕ) * ((1:ℝ) - 1) ^ 2 := by norm_num
      nlinarith
    · have h2 : (0:ℝ) < ((1:ℝ) - (List.replicate 255 (1:ℝ) ++ [2]).sum /
          ((List.replicate 255 (1:ℝ) ++ [2]).length : ℝ)) ^ 2 :=
        pow_two_pos_of_ne_zero (sub_ne_zero_of_ne (Ne.symm h1))
      have h3 : (0:ℝ) ≤ ((2:ℝ) - (List.replicate 255 (1:ℝ) ++ [2]).sum /
          ((List.replicate 255 (1:ℝ) ++ [2]).length : ℝ)) ^ 2 := sq_nonneg _
      have h4 : (0:ℝ) < (255 : ℕ) := by norm_num
      nlinarith
  · rw [List.length_append, List.length_replicate]
    norm_num

end IForest

namespace IForest

/-- On the duplicate batch the anomaly score of `basePoint` is a finite
value at most `-1/4`: the structural score is deeply negative (average path
at least `8 + leafCorrectionBound` versus a normalizer of 8) and the
statistical score is capped at 1. -/
theorem calculateAnomalyScore_duplicates_neg (rng : ℕ → TreeRng) :
    ∃ y : ℝ, calculateAnomalyScore basePoint (buildIsolationForest duplicateBatch 50 rng)
        (calculateBaseline duplicateBatch) = JsNum.fin y ∧ y ≤ -(1/4) := by
  have hlenF : (buildIsolationForest duplicateBatch 50 rng).length = 50 := by
    simp only [buildIsolationForest]
    rw [List.length_map, List.length_range]
  have hmemLB : ∀ x ∈ ((buildIsolationForest duplicateBatch 50 rng).map
      fun t => getPathLength basePoint t 0), (8 : ℝ) + leafCorrectionBound ≤ x := by
    intro x hx
    rcases List.mem_map.mp hx with ⟨t, ht, rfl⟩
    exact forest_paths_lower rng t ht
  have hsum := list_sum_lower _ _ hmemLB
  rw [List.length_map, hlenF] at hsum
  push_cast at hsum
  have hstd := duplicateBatch_std_pos
  simp only [calculateAnomalyScore]
  have hdiv : jsdiv |basePoint.kwhM3 - (calculateBaseline duplicateBatch).kwhM3.mean|
      (calculateBaseline duplicateBatch).kwhM3.std =
      JsNum.fin (|basePoint.kwhM3 - (calculateBaseline duplicateBatch).kwhM3.mean| /
        (calculateBaseline duplicateBatch).kwhM3.std) := by
    unfold jsdiv
    rw [if_neg (ne_of_gt hstd)]
  rw [hdiv]
  refine ⟨(6/10) * (1 - ((buildIsolationForest duplicateBatch 50 rng).map
      fun t => getPathLength basePoint t 0).sum /
        ((buildIsolationForest duplicateBatch 50 rng).length : ℝ) /
          ((Nat.clog 2 256 : ℕ) : ℝ)) +
    (4/10) * min 1 (|basePoint.kwhM3 - (calculateBaseline duplicateBatch).kwhM3.mean| /
      (calculateBaseline duplicateBatch).kwhM3.std / 3), rfl, ?_⟩
  have hL9 := leafCorrectionBound_ge_nine
  have hm1 : min (1:ℝ) (|basePoint.kwhM3 - (calculateBaseline duplicateBatch).kwhM3.mean| /
      (calculateBaseline duplicateBatch).kwhM3.std / 3) ≤ 1 := min_le_left _ _
  have hclog8 : ((Nat.clog 2 256 : ℕ) : ℝ) = 8 := by
    rw [show Nat.clog 2 256 = 8 by
      rw [show (256 : ℕ) = 2 ^ 8 by norm_num]
      exact Nat.clog_pow 2 8 (by norm_num)]
    norm_num
  rw [hclog8, hlenF]
  have hdivS : ((buildIsolationForest duplicateBatch 50 rng).map
      fun t => getPathLength basePoint t 0).sum / ((50 : ℕ) : ℝ) / 8 =
    ((buildIsolationForest duplicateBatch 50 rng).map
      fun t => getPathLength basePoint t 0).sum / 400 := by
    push_cast
    ring
  rw [hdivS]
  have h400 : (400 : ℝ) + 50 * leafCorrectionBound ≤
      ((buildIsolationForest duplicateBatch 50 rng).map
        fun t => getPathLength basePoint t 0).sum := by nlinarith [hsum]
  linarith

/-- Claim C3 (evidence): on the 256-reading batch of 255 duplicates plus one
distinct reading, the returned score of the first reading is a finite
negative number — outside `[0, 1]`.  The duplicates can never be separated
by a split, so every tree gives them a path length of `8 + c(≥255) ≈ 17.2`,
and the normalizer `ceil(log2(256)) = 8` drives the structural score far
below 0, which the capped statistical score cannot recover. -/
theorem detectAnomalies_duplicates_negative_score (rng : ℕ → TreeRng) :
    ∃ x : ℝ, ((detectAnomalies duplicateBatch rng).headD someResult).score = JsNum.fin x ∧
      x < 0 := by
  have hlen : ¬ duplicateBatch.length < 10 := by
    rw [duplicateBatch_length]
    omega
  obtain ⟨y, hy, hyle⟩ := calculateAnomalyScore_duplicates_neg rng
  simp only [detectAnomalies]
  rw [if_neg hlen]
  have hshape : duplicateBatch = basePoint :: (List.replicate 254 basePoint ++ [oddPoint]) := by
    unfold duplicateBatch
    rw [show (255 : ℕ) = 254 + 1 from rfl, List.replicate_succ, List.cons_append]
  have hmap : ∀ f : SensorPoint → AnomalyResult,
      (duplicateBatch.map f).headD someResult = f basePoint := by
    intro f
    rw [hshape]
    rfl
  rw [hmap]
  refine ⟨((⌊y * 1000 + 1/2⌋ : ℤ) : ℝ) / 1000, ?_, ?_⟩
  · show jround3 (calculateAnomalyScore basePoint (buildIsolationForest duplicateBatch 50 rng)
      (calculateBaseline duplicateBatch)) = JsNum.fin (((⌊y * 1000 + 1/2⌋ : ℤ) : ℝ) / 1000)
    rw [hy]
    rfl
  · have hfl : ((⌊y * 1000 + 1/2⌋ : ℤ) : ℝ) ≤ y * 1000 + 1/2 := Int.floor_le _
    apply div_neg_of_neg_of_pos
    · linarith
    · norm_num

end IForest
